import Mathlib

/-!
Shallow embedding of the WebSocket wrapper client (`src/index.ts`).

The client is modelled as a record `Client` holding the fields of the
`WebSocketClient` class, together with a deterministic `step` function over
externally scheduled events (socket open/close/error/message, the reconnect
timeout firing, the idle-check interval firing, the public `subscribe` /
`unsubscribe` calls and the page-visibility handler).  Observable side
effects (socket transmissions, socket construction, socket close requests,
poll-loop launches, push-dispatch callback invocations and the ids returned
by `subscribe`) are emitted as an action log rather than hidden state.

The per-subscription REST polling loop (`pollRestfulAPIForSubscription`'s
`while` body) is an `async` loop whose suspension points interleave with the
rest of the client; it is embedded separately as a small-step system
(`PollState` / `pollStep`) whose phases are the loop's suspension points
(guard check, `await restfulApiFunc()` in flight, `await` of the sleep).
-/

namespace WebSocketWrap

/-- Decoded inbound frame (`JSON.parse(event.data)`): the `error` field is
`some` exactly when the property is defined, and `stream` stands for the
routable payload data inspected by subscriber predicates. -/
structure Payload where
  error : Option Nat
  stream : String
deriving DecidableEq

/-- Outbound request object `{ ...params, id }`: the caller-supplied
parameters (kept opaque) together with the numeric id this client embeds. -/
structure Msg where
  params : String
  id : Nat
deriving DecidableEq

/-- One `onResult` callback invocation: which subscription id, and the two
arguments `(error | null, payload | null)`. -/
structure CallEvent where
  subId : Nat
  err : Option Nat
  payload : Option Payload
deriving DecidableEq

/-- Entry of the `subscriptions` map.  `predicate` returns `Except` so that a
throwing predicate can be modelled; `cbThrows` tells, per argument pair,
whether the subscriber's callback throws when invoked with those arguments
(the callback's return value is otherwise irrelevant).  `restfulApiFunc` is
the optional pull-fallback (call number ↦ resolved payload or rejection);
`shouldStop` is `none` while the dynamically-added `shouldStop` property is
absent (`hasOwnProperty` fails). -/
structure Subscription where
  id : Nat
  message : Msg
  predicate : Payload → Except Nat Bool
  cbThrows : Option Nat → Option Payload → Bool
  restfulApiFunc : Option (Nat → Except Nat Payload)
  shouldStop : Option Bool

/-- Observable actions emitted by a step. -/
inductive Act where
  | AInit : Act
  | ASend : Msg → Act
  | AClose : Act
  | APollStart : Nat → Act
  | ACallback : CallEvent → Act
  | ASubId : Nat → Act
deriving DecidableEq

/-- State of the `WebSocketClient` instance.  `reconnectTimerSet` is whether
a reconnect timeout is pending, `checkIdleTimerActive` whether the idle-check
interval is armed, and `hasSocket` whether a constructed socket can still
fire events (its `onclose` has not yet run). -/
structure Client where
  isOpened : Bool
  messageQueue : List Msg
  reconnectTimerSet : Bool
  idCounter : Nat
  reconnectCount : Nat
  subscriptions : List Subscription
  usingRestfulAPI : Bool
  isBehind : Bool
  lastActiveTime : Nat
  checkIdleTimerActive : Bool
  hasSocket : Bool

/-- `this.idleTime = 10 * 60 * 1000`. -/
def idleTime : Nat := 10 * 60 * 1000

/-- `send(message)`: `this.socket.send(JSON.stringify(message))` — transmits
unconditionally, no state change. -/
def send (c : Client) (m : Msg) : Client × List Act :=
  (c, [Act.ASend m])

/-- `stopReconnect()`: clears the pending reconnect timeout and resets the
attempt counter. -/
def stopReconnect (c : Client) : Client :=
  { c with reconnectTimerSet := false, reconnectCount := 0 }

/-- `reconnect()` (synchronous part): cancels any pending reconnect timer,
marks the connection not opened and schedules one delayed attempt; the
timeout body is `reconnectTimerFire`. -/
def reconnect (c : Client) : Client :=
  { c with isOpened := false, reconnectTimerSet := true }

/-- `sendCachedMessages()`: while the queue is non-empty and the socket is
opened, shift from the head and transmit. -/
def sendCachedMessages (c : Client) : Client × List Act :=
  if c.isOpened then
    ({ c with messageQueue := [] }, c.messageQueue.map Act.ASend)
  else
    (c, [])

/-- Synchronous prefix of `pollRestfulAPIForSubscription(id)`: look the
subscription up; return if it has no `restfulApiFunc`; otherwise install the
`shouldStop` property when absent and launch the polling loop (the loop body
itself is the separate `pollStep` system). -/
def pollRestfulAPIForSubscription (c : Client) (id : Nat) : Client × List Act :=
  match c.subscriptions.find? (fun s => s.id == id) with
  | none => (c, [])
  | some sub =>
    if sub.restfulApiFunc.isNone then
      (c, [])
    else
      ({ c with subscriptions := c.subscriptions.map (fun s =>
          if s.id = id ∧ s.shouldStop = none then { s with shouldStop := some false } else s) },
       [Act.APollStart id])

/-- `pollRestfulAPI(id)`: with an id, poll that one subscription; without,
iterate over all current registry entries. -/
def pollRestfulAPI (c : Client) (idOpt : Option Nat) : Client × List Act :=
  match idOpt with
  | some id => pollRestfulAPIForSubscription c id
  | none =>
    c.subscriptions.foldl
      (fun acc s =>
        ((pollRestfulAPIForSubscription acc.1 s.id).1,
         acc.2 ++ (pollRestfulAPIForSubscription acc.1 s.id).2))
      (c, [])

/-- `stopPollingById(id)`: sets `shouldStop = true` on the subscription
object when present. -/
def stopPollingById (c : Client) (id : Nat) : Client :=
  { c with subscriptions := c.subscriptions.map (fun s =>
      if s.id = id then { s with shouldStop := some true } else s) }

/-- `subscribe(params, callback, predicate, restfulApiFunc)`: allocate the
next id, embed it in the request, store the subscription, then dispatch —
poll when degraded, queue when not opened, transmit when opened.  The
returned id is logged as `Act.ASubId`. -/
def subscribe (c : Client) (params : String)
    (predicate : Payload → Except Nat Bool)
    (cbThrows : Option Nat → Option Payload → Bool)
    (restfulApiFunc : Option (Nat → Except Nat Payload)) : Client × List Act :=
  let id := c.idCounter
  let message : Msg := ⟨params, id⟩
  let c1 : Client := { c with
    idCounter := id + 1,
    subscriptions := c.subscriptions ++ [⟨id, message, predicate, cbThrows, restfulApiFunc, none⟩] }
  if c1.usingRestfulAPI then
    ((pollRestfulAPI c1 (some id)).1, Act.ASubId id :: (pollRestfulAPI c1 (some id)).2)
  else if c1.isOpened then
    (c1, [Act.ASubId id, Act.ASend message])
  else
    ({ c1 with messageQueue := c1.messageQueue ++ [message] }, [Act.ASubId id])

/-- `unsubscribe(id, params)`: halt polling, delete the registry entry, and
if opened send the unsubscribe control message under a freshly allocated id. -/
def unsubscribe (c : Client) (id : Nat) (params : String) : Client × List Act :=
  let c1 := stopPollingById c id
  let c2 : Client := { c1 with subscriptions := c1.subscriptions.filter (fun s => s.id != id) }
  if c2.isOpened then
    ({ c2 with idCounter := c2.idCounter + 1 }, [Act.ASend ⟨params, c2.idCounter⟩])
  else
    (c2, [])

/-- One subscription's part of the `onmessage` fan-out: the invocation(s) it
performs on the decoded frame, and whether it threw (from its predicate or
its callback). -/
def subDispatch (data : Payload) (s : Subscription) : List CallEvent × Bool :=
  match data.error with
  | some e => ([⟨s.id, some e, none⟩], s.cbThrows (some e) none)
  | none =>
    match s.predicate data with
    | .error _ => ([], true)
    | .ok true => ([⟨s.id, none, some data⟩], s.cbThrows none (some data))
    | .ok false => ([], false)

/-- The `subscriptions.forEach` of `onMessage`, wrapped in the surrounding
`try`/`catch`: iteration stops at the first subscription that throws (the
exception is caught and only logged). -/
def dispatchAll (data : Payload) : List Subscription → List CallEvent
  | [] => []
  | s :: rest =>
    if (subDispatch data s).2 then (subDispatch data s).1
    else (subDispatch data s).1 ++ dispatchAll data rest

/-- `onMessage(event)`: decode once and fan out to the registry. -/
def onMessage (c : Client) (data : Payload) : Client × List Act :=
  (c, (dispatchAll data c.subscriptions).map Act.ACallback)

/-- `checkIdleTime()`: when opened and idle beyond the threshold, snapshot
every registered subscription's current request into the queue (overwriting
it), set `isBehind` and request the socket close. -/
def checkIdleTime (c : Client) (now : Nat) : Client × List Act :=
  if c.lastActiveTime + idleTime < now ∧ c.isOpened then
    ({ c with messageQueue := c.subscriptions.map (fun s => s.message), isBehind := true },
     [Act.AClose])
  else
    (c, [])

/-- `handleVisibilityChange()`: on `hidden` re-run the idle check; on
`visible` refresh the activity clock and reconnect when not opened. -/
def handleVisibilityChange (c : Client) (hidden : Bool) (now : Nat) : Client × List Act :=
  if hidden then
    checkIdleTime c now
  else
    if ({ c with lastActiveTime := now } : Client).isOpened then
      ({ c with lastActiveTime := now }, [])
    else
      (reconnect { c with lastActiveTime := now }, [])

/-- Field updates performed at the top of the `socket.onopen` handler. -/
def openedState (c : Client) (now : Nat) : Client :=
  { c with lastActiveTime := now, isOpened := true, isBehind := false,
           usingRestfulAPI := false, reconnectCount := 0 }

/-- `socket.onopen`: set the opened state, flush the cached messages, stop
the reconnect timer and arm the idle-check interval. -/
def onOpen (c : Client) (now : Nat) : Client × List Act :=
  ({ stopReconnect (sendCachedMessages (openedState c now)).1 with checkIdleTimerActive := true },
   (sendCachedMessages (openedState c now)).2)

/-- `socket.onclose`: mark not opened, schedule a reconnect unless the close
was hibernation-initiated (`isBehind`), and clear the idle-check interval.
The socket that fired this is spent. -/
def onClose (c : Client) : Client × List Act :=
  if ({ c with isOpened := false } : Client).isBehind then
    ({ c with isOpened := false, checkIdleTimerActive := false, hasSocket := false }, [])
  else
    ({ reconnect { c with isOpened := false } with
        checkIdleTimerActive := false, hasSocket := false }, [])

/-- Body of the `setTimeout` scheduled by `reconnect()`: past the attempt
budget, stop retrying, flip to degraded mode and start polling everything;
otherwise count the attempt and construct a fresh socket (`initWebSocket`). -/
def reconnectTimerFire (c : Client) : Client × List Act :=
  if ({ c with reconnectTimerSet := false } : Client).reconnectCount ≥ 2 then
    ((pollRestfulAPI { stopReconnect { c with reconnectTimerSet := false } with usingRestfulAPI := true } none).1,
     (pollRestfulAPI { stopReconnect { c with reconnectTimerSet := false } with usingRestfulAPI := true } none).2)
  else
    ({ c with reconnectTimerSet := false, reconnectCount := c.reconnectCount + 1, hasSocket := true },
     [Act.AInit])

/-- Externally scheduled events driving the client. -/
inductive Event where
  | EOpen : Nat → Event
  | EClose : Event
  | EError : Event
  | EMessage : Payload → Event
  | ETimerFire : Event
  | EIdleTick : Nat → Event
  | ESubscribe : String → (Payload → Except Nat Bool) →
      (Option Nat → Option Payload → Bool) → Option (Nat → Except Nat Payload) → Event
  | EUnsubscribe : Nat → String → Event
  | EVisibility : Bool → Nat → Event

/-- One scheduler step: socket events fire only while a constructed socket
is live, message events only while opened, the timers only while armed. -/
def step (c : Client) : Event → Client × List Act
  | .EOpen now => if c.hasSocket then onOpen c now else (c, [])
  | .EClose => if c.hasSocket then onClose c else (c, [])
  | .EError => if c.hasSocket then ({ c with isOpened := false }, []) else (c, [])
  | .EMessage data => if c.isOpened then onMessage c data else (c, [])
  | .ETimerFire => if c.reconnectTimerSet then reconnectTimerFire c else (c, [])
  | .EIdleTick now => if c.checkIdleTimerActive then checkIdleTime c now else (c, [])
  | .ESubscribe params pred cbT rf => subscribe c params pred cbT rf
  | .EUnsubscribe id params => unsubscribe c id params
  | .EVisibility hidden now => handleVisibilityChange c hidden now

/-- Run a list of events, concatenating the emitted actions. -/
def run (c : Client) : List Event → Client × List Act
  | [] => (c, [])
  | e :: es => ((run (step c e).1 es).1, (step c e).2 ++ (run (step c e).1 es).2)

/-- All states visited by a run, the initial one included. -/
def runStates (c : Client) : List Event → List Client
  | [] => [c]
  | e :: es => c :: runStates (step c e).1 es

/-- State right after the constructor: fields initialised, `initWebSocket`
called (so a socket is live), nothing opened yet. -/
def mkClient : Client :=
  { isOpened := false, messageQueue := [], reconnectTimerSet := false,
    idCounter := 1, reconnectCount := 0, subscriptions := [],
    usingRestfulAPI := false, isBehind := false, lastActiveTime := 0,
    checkIdleTimerActive := false, hasSocket := true }

/-! ### The per-subscription polling loop -/

/-- Suspension points of the `while` loop of
`pollRestfulAPIForSubscription`: about to test the guard, `await
restfulApiFunc()` in flight, the 1000 ms sleep in flight, or exited. -/
inductive PollPhase where
  | check | fetching | sleeping | done
deriving DecidableEq

/-- State visible to one polling loop: its phase, the live reads of
`this.usingRestfulAPI` and of the captured subscription object's
`shouldStop`, and the log of callback invocations `(error, payload)` it has
performed. -/
structure PollState where
  phase : PollPhase
  usingRestfulAPI : Bool
  shouldStop : Bool
  callLog : List (Option Nat × Option Payload)
deriving DecidableEq

/-- Events interleaving with one polling loop: the loop reaching its guard,
the pending fetch resolving or rejecting, the sleep elapsing, and
`unsubscribe` setting the stop flag (via `stopPollingById`). -/
inductive PollEvent where
  | tick : PollEvent
  | fetchDone : Except Nat Payload → PollEvent
  | sleepDone : PollEvent
  | unsub : PollEvent

/-- Small-step semantics of the loop body: the guard is evaluated only at
`tick`; a resolution arriving while the fetch is in flight runs the
`try`/`catch` body.  The subscriber's callback is itself a throwing
function (`Except.error` = it throws): a predicate match fires
`callback(null, response)`, and when that invocation throws — or the
predicate throws, or the fetch rejects — the `catch` fires
`callback(error, null)`, so one resolution can perform two invocations.  A
throw out of the `catch`'s own invocation propagates out of the loop and
kills it (phase `done`, skipping the sleep). -/
def pollStep (predicate : Payload → Except Nat Bool)
    (callback : Option Nat → Option Payload → Except Nat Unit)
    (s : PollState) : PollEvent → PollState
  | .tick =>
    if s.phase = PollPhase.check then
      if s.usingRestfulAPI && !s.shouldStop then { s with phase := PollPhase.fetching }
      else { s with phase := PollPhase.done }
    else s
  | .fetchDone res =>
    if s.phase = PollPhase.fetching then
      match res with
      | .ok p =>
        match predicate p with
        | .ok true =>
          match callback none (some p) with
          | .ok _ => { s with phase := PollPhase.sleeping, callLog := s.callLog ++ [(none, some p)] }
          | .error e2 =>
            match callback (some e2) none with
            | .ok _ =>
              { s with
                  phase := PollPhase.sleeping,
                  callLog := s.callLog ++ [(none, some p), (some e2, none)] }
            | .error _ =>
              { s with
                  phase := PollPhase.done,
                  callLog := s.callLog ++ [(none, some p), (some e2, none)] }
        | .ok false => { s with phase := PollPhase.sleeping }
        | .error e =>
          match callback (some e) none with
          | .ok _ => { s with phase := PollPhase.sleeping, callLog := s.callLog ++ [(some e, none)] }
          | .error _ => { s with phase := PollPhase.done, callLog := s.callLog ++ [(some e, none)] }
      | .error e =>
        match callback (some e) none with
        | .ok _ => { s with phase := PollPhase.sleeping, callLog := s.callLog ++ [(some e, none)] }
        | .error _ => { s with phase := PollPhase.done, callLog := s.callLog ++ [(some e, none)] }
    else s
  | .sleepDone =>
    if s.phase = PollPhase.sleeping then { s with phase := PollPhase.check } else s
  | .unsub => { s with shouldStop := true }

/-- Run the polling loop against a schedule of events. -/
def pollRun (predicate : Payload → Except Nat Bool)
    (callback : Option Nat → Option Payload → Except Nat Unit)
    (s : PollState) : List PollEvent → PollState
  | [] => s
  | e :: es => pollRun predicate callback (pollStep predicate callback s e) es

/-! ### Concrete objects used by counterexamples and witnesses -/

/-- Predicate that matches every payload and never throws. -/
def predTrue : Payload → Except Nat Bool := fun _ => Except.ok true

/-- Callback that never throws. -/
def cbNoThrow : Option Nat → Option Payload → Bool := fun _ _ => false

/-- Callback that always throws. -/
def cbAlwaysThrow : Option Nat → Option Payload → Bool := fun _ _ => true

/-- Poll-loop callback that never throws. -/
def cbOk : Option Nat → Option Payload → Except Nat Unit := fun _ _ => Except.ok ()

/-- Poll-loop callback that throws (value 7) on the success invocation
`(null, payload)` but returns normally from the catch-path invocation. -/
def cbThrowOnSuccess : Option Nat → Option Payload → Except Nat Unit := fun e p =>
  match e, p with
  | none, some _ => Except.error 7
  | _, _ => Except.ok ()

/-- A non-error payload. -/
def pay : Payload := ⟨none, "btcusdt@ticker"⟩

/-- A registered subscription whose callback throws on every invocation. -/
def subThrow : Subscription := ⟨1, ⟨"a", 1⟩, predTrue, cbAlwaysThrow, none, none⟩

/-- A registered, matching, well-behaved subscription. -/
def subOk : Subscription := ⟨2, ⟨"b", 2⟩, predTrue, cbNoThrow, none, none⟩

/-- A second well-behaved subscription. -/
def subOk3 : Subscription := ⟨3, ⟨"c", 3⟩, predTrue, cbNoThrow, none, none⟩

/-- Event schedule in which every `open()` attempt fails: the constructor's
socket closes, the retry timer fires (attempt 2), that socket closes, the
timer fires again (attempt 3), that socket closes, and the timer fires once
more. -/
def degradedTrace : List Event :=
  [Event.EClose, Event.ETimerFire, Event.EClose, Event.ETimerFire,
   Event.EClose, Event.ETimerFire]

/-- Degraded mode with nothing pending: polling is active, no socket is live,
no timer is armed. -/
def DegradedQuiescent (c : Client) : Bool :=
  c.usingRestfulAPI && !c.isOpened && !c.reconnectTimerSet &&
    !c.checkIdleTimerActive && !c.hasSocket

/-- The external resume signal: a foreground (visible) visibility transition. -/
def isResume : Event → Bool
  | Event.EVisibility hidden _ => !hidden
  | _ => false

/-- A concrete quiescent degraded client. -/
def degradedClient : Client :=
  { mkClient with usingRestfulAPI := true, hasSocket := false }

/-- Ids returned by `subscribe` among the logged actions. -/
def subIdsOf (as : List Act) : List Nat :=
  as.filterMap (fun a => match a with | Act.ASubId n => some n | _ => none)

/-- Function on subscriptions that can change at most the `shouldStop` flag. -/
def OnlyStop (f : Subscription → Subscription) : Prop :=
  ∀ s, (f s).id = s.id ∧ (f s).message = s.message ∧ (f s).restfulApiFunc = s.restfulApiFunc

/-- Every registered subscription id is below the id counter. -/
def IdsBelow (c : Client) : Prop := ∀ s ∈ c.subscriptions, s.id < c.idCounter

/-- No registered subscription carries this id. -/
def NotRegistered (c : Client) (id : Nat) : Prop := ∀ s ∈ c.subscriptions, s.id ≠ id

/-- Any subscription registered under this id has no pull fallback. -/
def NoRfFor (c : Client) (id : Nat) : Prop :=
  ∀ s ∈ c.subscriptions, s.id = id → s.restfulApiFunc = none

/-- Pending callback allowance of a polling loop: while a fetch is in
flight its resolution can still perform up to two invocations (the normal
one plus the catch-path one when the callback throws), none otherwise. -/
def pollAllowance (s : PollState) : Nat := if s.phase = PollPhase.fetching then 2 else 0

/-- The subscription's predicate returned `true` (without throwing). -/
def matchesOk (data : Payload) (s : Subscription) : Bool :=
  match s.predicate data with
  | Except.ok true => true
  | _ => false

/-- A concrete opened client with one registered subscription and the idle
interval armed. -/
def idleClient : Client :=
  { mkClient with isOpened := true, checkIdleTimerActive := true, subscriptions := [subOk] }

/-! ### Structural lemmas about the poll-start paths -/

theorem onlyStop_id : OnlyStop (fun s => s) := fun _ => ⟨rfl, rfl, rfl⟩

theorem onlyStop_comp {f g : Subscription → Subscription} (hf : OnlyStop f) (hg : OnlyStop g) :
    OnlyStop (fun s => f (g s)) := by
  intro s
  exact ⟨((hf (g s)).1).trans (hg s).1, ((hf (g s)).2.1).trans (hg s).2.1,
         ((hf (g s)).2.2).trans (hg s).2.2⟩

/-- `pollRestfulAPIForSubscription` only flips `shouldStop` flags, and emits
at most one `APollStart`, only for an id registered with a pull fallback. -/
theorem pollForSub_shape (c : Client) (id : Nat) :
    ∃ f, OnlyStop f ∧
      (pollRestfulAPIForSubscription c id).1 = { c with subscriptions := c.subscriptions.map f } ∧
      ((pollRestfulAPIForSubscription c id).2 = []
        ∨ ((pollRestfulAPIForSubscription c id).2 = [Act.APollStart id]
            ∧ ∃ s ∈ c.subscriptions, s.id = id ∧ s.restfulApiFunc.isSome)) := by
  unfold pollRestfulAPIForSubscription
  cases hf : c.subscriptions.find? (fun s => s.id == id) with
  | none =>
    refine ⟨fun s => s, onlyStop_id, ?_, Or.inl rfl⟩
    simp
  | some sub =>
    by_cases hrf : sub.restfulApiFunc.isNone
    · refine ⟨fun s => s, onlyStop_id, ?_, ?_⟩ <;> simp [hrf]
    · refine ⟨fun s => if s.id = id ∧ s.shouldStop = none then { s with shouldStop := some false } else s,
        ?_, ?_, ?_⟩
      · intro s
        by_cases h : s.id = id ∧ s.shouldStop = none <;> simp [h]
      · simp [hrf]
      · refine Or.inr ⟨by simp [hrf], sub, List.mem_of_find?_eq_some hf, ?_, ?_⟩
        · have := List.find?_some hf
          simpa using this
        · rw [Option.isSome_iff_ne_none]
          simpa [Option.isNone_iff_eq_none] using hrf

/-- The `forEach` of `pollRestfulAPI()` accumulated over any subscription
list: the client only gets `shouldStop` flags flipped, and every emitted
action beyond the accumulator is an `APollStart` for an id registered with a
pull fallback. -/
theorem pollAll_fold_shape (l : List Subscription) : ∀ (c : Client) (acc : List Act),
    ∃ f, OnlyStop f ∧
      (l.foldl (fun acc s => ((pollRestfulAPIForSubscription acc.1 s.id).1,
          acc.2 ++ (pollRestfulAPIForSubscription acc.1 s.id).2)) (c, acc)).1
        = { c with subscriptions := c.subscriptions.map f } ∧
      ∀ a ∈ (l.foldl (fun acc s => ((pollRestfulAPIForSubscription acc.1 s.id).1,
          acc.2 ++ (pollRestfulAPIForSubscription acc.1 s.id).2)) (c, acc)).2,
        a ∈ acc ∨ ∃ i, a = Act.APollStart i ∧
          ∃ s ∈ c.subscriptions, s.id = i ∧ s.restfulApiFunc.isSome := by
  induction l with
  | nil =>
    intro c acc
    exact ⟨fun s => s, onlyStop_id, by simp, fun a ha => Or.inl (by simpa using ha)⟩
  | cons s rest ih =>
    intro c acc
    obtain ⟨f1, hf1, hst1, hacts1⟩ := pollForSub_shape c s.id
    obtain ⟨f2, hf2, hst2, hacts2⟩ :=
      ih (pollRestfulAPIForSubscription c s.id).1 (acc ++ (pollRestfulAPIForSubscription c s.id).2)
    refine ⟨fun t => f2 (f1 t), onlyStop_comp hf2 hf1, ?_, ?_⟩
    · rw [List.foldl_cons]
      rw [hst2, hst1]
      simp [List.map_map, Function.comp]
    · intro a ha
      rw [List.foldl_cons] at ha
      rcases hacts2 a ha with hmem | ⟨i, hai, t, htmem, htid, htrf⟩
      · rcases List.mem_append.mp hmem with h1 | h2
        · exact Or.inl h1
        · rcases hacts1 with hnil | ⟨heq, u, humem, huid, hurf⟩
          · rw [hnil] at h2; simp at h2
          · rw [heq] at h2
            simp at h2
            exact Or.inr ⟨s.id, h2, u, humem, huid, hurf⟩
      · rw [hst1] at htmem
        simp only [Client.mk.injEq] at htmem
        rcases List.mem_map.mp htmem with ⟨u, humem, hu⟩
        refine Or.inr ⟨i, hai, u, humem, ?_, ?_⟩
        · rw [← (hf1 u).1, hu, htid]
        · rw [← (hf1 u).2.2, hu]; exact htrf

/-- Shape of `pollRestfulAPI` in both call forms. -/
theorem pollRestfulAPI_shape (c : Client) (idOpt : Option Nat) :
    ∃ f, OnlyStop f ∧
      (pollRestfulAPI c idOpt).1 = { c with subscriptions := c.subscriptions.map f } ∧
      ∀ a ∈ (pollRestfulAPI c idOpt).2, ∃ i, a = Act.APollStart i ∧
        ∃ s ∈ c.subscriptions, s.id = i ∧ s.restfulApiFunc.isSome := by
  cases idOpt with
  | some id =>
    obtain ⟨f, hf, hst, hacts⟩ := pollForSub_shape c id
    refine ⟨f, hf, hst, ?_⟩
    intro a ha
    simp only [pollRestfulAPI] at ha
    rcases hacts with hnil | ⟨heq, u, humem, huid, hurf⟩
    · rw [hnil] at ha; simp at ha
    · rw [heq] at ha
      simp at ha
      exact ⟨id, ha, u, humem, huid, hurf⟩
  | none =>
    obtain ⟨f, hf, hst, hacts⟩ := pollAll_fold_shape c.subscriptions c []
    refine ⟨f, hf, hst, ?_⟩
    intro a ha
    simp only [pollRestfulAPI] at ha
    rcases hacts a ha with hmem | h
    · simp at hmem
    · exact h

theorem find?_append_of_none {α} (l1 l2 : List α) (p : α → Bool) (h : ∀ s ∈ l1, p s = false) :
    (l1 ++ l2).find? p = l2.find? p := by
  induction l1 with
  | nil => simp
  | cons a rest ih =>
    have ha := h a (List.mem_cons_self ..)
    simp [List.find?, ha, ih (fun s hs => h s (List.mem_cons_of_mem _ hs))]

/-- A degraded-mode `subscribe` with no pull fallback stores the subscription
and does nothing else. -/
theorem subscribe_degraded_noRf (c : Client) (params : String)
    (pred : Payload → Except Nat Bool) (cbT : Option Nat → Option Payload → Bool)
    (hU : c.usingRestfulAPI = true) (hB : IdsBelow c) :
    subscribe c params pred cbT none =
      ({ c with
          idCounter := c.idCounter + 1,
          subscriptions := c.subscriptions ++ [⟨c.idCounter, ⟨params, c.idCounter⟩, pred, cbT, none, none⟩] },
       [Act.ASubId c.idCounter]) := by
  have hfind : ∀ s ∈ c.subscriptions, (s.id == c.idCounter) = false := by
    intro s hs
    have := hB s hs
    simp [Nat.ne_of_lt this]
  unfold subscribe pollRestfulAPI pollRestfulAPIForSubscription
  simp only [hU, if_true]
  rw [find?_append_of_none _ _ _ hfind]
  simp [List.find?]

/-- A degraded-mode `subscribe` (any fallback): the state change is the
registry append (plus `shouldStop` flips) and the id bump, and the actions
are the returned id plus at most a poll start for an id registered with a
pull fallback. -/
theorem subscribe_degraded_shape (c : Client) (params : String)
    (pred : Payload → Except Nat Bool) (cbT : Option Nat → Option Payload → Bool)
    (rf : Option (Nat → Except Nat Payload)) (hU : c.usingRestfulAPI = true) :
    ∃ f, OnlyStop f ∧
      (subscribe c params pred cbT rf).1 =
        { c with
            idCounter := c.idCounter + 1,
            subscriptions := (c.subscriptions ++
              [(⟨c.idCounter, ⟨params, c.idCounter⟩, pred, cbT, rf, none⟩ : Subscription)]).map f } ∧
      ∀ a ∈ (subscribe c params pred cbT rf).2, a = Act.ASubId c.idCounter ∨
        ∃ i, a = Act.APollStart i ∧
          ∃ s ∈ c.subscriptions ++ [(⟨c.idCounter, ⟨params, c.idCounter⟩, pred, cbT, rf, none⟩ : Subscription)],
            s.id = i ∧ s.restfulApiFunc.isSome := by
  unfold subscribe
  rw [if_pos (show ({ c with
      idCounter := c.idCounter + 1,
      subscriptions := c.subscriptions ++
        [⟨c.idCounter, ⟨params, c.idCounter⟩, pred, cbT, rf, none⟩] } : Client).usingRestfulAPI = true from hU)]
  obtain ⟨f, hf, hst, hacts⟩ := pollRestfulAPI_shape
    ({ c with
        idCounter := c.idCounter + 1,
        subscriptions := c.subscriptions ++
          [⟨c.idCounter, ⟨params, c.idCounter⟩, pred, cbT, rf, none⟩] } : Client) (some c.idCounter)
  refine ⟨f, hf, ?_, ?_⟩
  · rw [hst]
  · intro a ha
    simp only [List.mem_cons] at ha
    rcases ha with h | h
    · exact Or.inl h
    · obtain ⟨i, hi, s, hsmem, hsid, hsrf⟩ := hacts a h
      exact Or.inr ⟨i, hi, s, hsmem, hsid, hsrf⟩

/-- C3 counterexample: with two registered matching subscriptions, the first
of which throws from its callback, push dispatch of a non-error frame stops
after the first — the second subscription's callback is never invoked. -/
theorem C3_counterexample :
    dispatchAll pay [subThrow, subOk] = [⟨1, none, some pay⟩]
    ∧ CallEvent.mk 2 none (some pay) ∉ dispatchAll pay [subThrow, subOk] :=
  ⟨rfl, by decide⟩

/-- C3 amended: a throwing callback or predicate is contained (dispatch
returns normally), the subscriptions before the faulting one receive the
frame as usual, but dispatch stops there — later subscriptions receive
nothing for this frame. -/
theorem C3_dispatch_stops_at_faulting_subscriber (data : Payload)
    (pre post : List Subscription) (bad : Subscription)
    (hpre : ∀ s ∈ pre, (subDispatch data s).2 = false)
    (hbad : (subDispatch data bad).2 = true) :
    dispatchAll data (pre ++ bad :: post) = dispatchAll data pre ++ (subDispatch data bad).1 := by
  induction pre with
  | nil => simp [dispatchAll, hbad]
  | cons s rest ih =>
    have hs := hpre s (List.mem_cons_self ..)
    have hrest : ∀ x ∈ rest, (subDispatch data x).2 = false :=
      fun x hx => hpre x (List.mem_cons_of_mem _ hx)
    simp [dispatchAll, hs, ih hrest]

theorem C3_dispatch_stops_witness :
    (∀ s ∈ [subOk], (subDispatch pay s).2 = false)
    ∧ (subDispatch pay subThrow).2 = true
    ∧ dispatchAll pay ([subOk] ++ subThrow :: [subOk3])
        = dispatchAll pay [subOk] ++ (subDispatch pay subThrow).1 :=
  ⟨by decide, by decide,
   C3_dispatch_stops_at_faulting_subscriber pay [subOk] [subOk3] subThrow (by decide) (by decide)⟩

/-- C1 counterexample: start from the constructed client whose first
`open()` attempt fails (socket closes), and let the retry attempt fail too —
exactly two consecutive failed `open()` attempts.  When the reconnect timer
then fires, the client is not in degraded mode and it performs a further
automatic `open()` call (`initWebSocket`), contradicting the claim that
after two failed attempts the mode is Degraded with no further `open()`s. -/
theorem C1_counterexample :
    (step (run mkClient [Event.EClose, Event.ETimerFire, Event.EClose]).1 Event.ETimerFire).2
        = [Act.AInit]
    ∧ (step (run mkClient [Event.EClose, Event.ETimerFire, Event.EClose]).1
        Event.ETimerFire).1.usingRestfulAPI = false :=
  ⟨rfl, rfl⟩

/-- C1 amended, part of the statement packaged as one theorem: (i) on the
schedule where the constructor's open and both automatic retries all fail
(three consecutive failed `open()` attempts), the next firing of the
reconnect timer flips the client to degraded mode, with no socket, timer or
idle interval left, and exactly `MAX_ATTEMPTS = 2` automatic re-`open()`
calls were made; (ii) from any quiescent degraded state, every event other
than a foreground visibility transition performs no automatic `open()` call
and leaves the client quiescent degraded. -/
theorem C1_degraded_after_exhaustion_and_quiescent :
    ((run mkClient degradedTrace).1.usingRestfulAPI = true
      ∧ DegradedQuiescent (run mkClient degradedTrace).1 = true
      ∧ (run mkClient degradedTrace).2.countP (fun a => a == Act.AInit) = 2)
    ∧ (∀ (c : Client) (e : Event), DegradedQuiescent c = true → isResume e = false →
        Act.AInit ∉ (step c e).2 ∧ DegradedQuiescent (step c e).1 = true) := by
  constructor
  · exact ⟨rfl, rfl, rfl⟩
  · intro c e hD hR
    simp only [DegradedQuiescent, Bool.and_eq_true, Bool.not_eq_true'] at hD
    obtain ⟨⟨⟨⟨hU, hO⟩, hT⟩, hI⟩, hS⟩ := hD
    cases e with
    | EOpen now => simp [step, hS, DegradedQuiescent, hU, hO, hT, hI]
    | EClose => simp [step, hS, DegradedQuiescent, hU, hO, hT, hI]
    | EError => simp [step, hS, DegradedQuiescent, hU, hO, hT, hI]
    | EMessage data => simp [step, hO, DegradedQuiescent, hU, hT, hI, hS]
    | ETimerFire => simp [step, hT, DegradedQuiescent, hU, hO, hI, hS]
    | EIdleTick now => simp [step, hI, DegradedQuiescent, hU, hO, hT, hS]
    | ESubscribe params pred cbT rf =>
      obtain ⟨f, hf, hst, hacts⟩ := subscribe_degraded_shape c params pred cbT rf hU
      constructor
      · intro hmem
        rcases hacts _ hmem with h | ⟨i, hi, -⟩
        · exact Act.noConfusion h
        · exact Act.noConfusion hi
      · show DegradedQuiescent (subscribe c params pred cbT rf).1 = true
        rw [hst]
        simp [DegradedQuiescent, hU, hO, hT, hI, hS]
    | EUnsubscribe id params =>
      simp [step, unsubscribe, stopPollingById, hO, DegradedQuiescent, hU, hT, hI, hS]
    | EVisibility hidden now =>
      cases hidden with
      | false => simp [isResume] at hR
      | true =>
        simp [step, handleVisibilityChange, checkIdleTime, hO, DegradedQuiescent, hU, hT, hI, hS]

theorem C1_degraded_witness :
    DegradedQuiescent degradedClient = true
    ∧ isResume Event.EClose = false
    ∧ (Act.AInit ∉ (step degradedClient Event.EClose).2
        ∧ DegradedQuiescent (step degradedClient Event.EClose).1 = true) :=
  ⟨rfl, rfl, C1_degraded_after_exhaustion_and_quiescent.2 degradedClient Event.EClose rfl rfl⟩

/-- C2 counterexample: subscribe while disconnected (request with id 1 goes
to the queue), unsubscribe before the connection opens (registry becomes
empty, but the queue still holds the request), then the socket opens — the
flush transmits the unsubscribed subscription's request. -/
theorem C2_counterexample :
    (run mkClient [Event.ESubscribe "A" predTrue cbNoThrow none,
        Event.EUnsubscribe 1 "U"]).1.subscriptions.map (fun s => s.id) = []
    ∧ (run mkClient [Event.ESubscribe "A" predTrue cbNoThrow none,
        Event.EUnsubscribe 1 "U"]).1.messageQueue = [⟨"A", 1⟩]
    ∧ (step (run mkClient [Event.ESubscribe "A" predTrue cbNoThrow none,
        Event.EUnsubscribe 1 "U"]).1 (Event.EOpen 5)).2 = [Act.ASend ⟨"A", 1⟩] :=
  ⟨rfl, rfl, rfl⟩

/-- C2 amended: the reopen flush transmits exactly the pending queue, in
order; `unsubscribe` never removes a request from the pending queue (so a
request queued for a later-unsubscribed subscription is still transmitted);
only the idle-check snapshot re-establishes the queue as exactly the
current requests of the registered subscriptions. -/
theorem C2_flush_sends_queue_unsubscribe_keeps_queue :
    (∀ (c : Client) (now : Nat), c.hasSocket = true →
        (step c (Event.EOpen now)).2 = c.messageQueue.map Act.ASend
        ∧ (step c (Event.EOpen now)).1.messageQueue = [])
    ∧ (∀ (c : Client) (id : Nat) (params : String),
        (unsubscribe c id params).1.messageQueue = c.messageQueue)
    ∧ (∀ (c : Client) (now : Nat), c.isOpened = true → c.lastActiveTime + idleTime < now →
        (checkIdleTime c now).1.messageQueue = c.subscriptions.map (fun s => s.message)) := by
  refine ⟨?_, ?_, ?_⟩
  · intro c now hS
    constructor <;> simp [step, onOpen, sendCachedMessages, openedState, stopReconnect, hS]
  · intro c id params
    unfold unsubscribe stopPollingById
    dsimp only
    split <;> rfl
  · intro c now hO hIdle
    simp [checkIdleTime, hO, hIdle]

theorem C2_flush_witness :
    mkClient.hasSocket = true
    ∧ ((step mkClient (Event.EOpen 3)).2 = mkClient.messageQueue.map Act.ASend
        ∧ (step mkClient (Event.EOpen 3)).1.messageQueue = []) :=
  ⟨rfl, C2_flush_sends_queue_unsubscribe_keeps_queue.1 mkClient 3 rfl⟩


/-- C4: provided no registered subscription's predicate or callback throws
on this frame, push dispatch of a frame with a defined `error` field invokes
every registered subscription's callback with `(error, null)` in registry
order, predicate notwithstanding; dispatch of a frame without an `error`
field invokes `(null, payload)` exactly for the subscriptions whose
predicate returns `true`, in registry order. -/
theorem C4_error_broadcast_and_predicate_routing (data : Payload) (subs : List Subscription)
    (hnf : ∀ s ∈ subs, (subDispatch data s).2 = false) :
    dispatchAll data subs =
      match data.error with
      | some e => subs.map (fun s => ⟨s.id, some e, none⟩)
      | none => (subs.filter (matchesOk data)).map (fun s => ⟨s.id, none, some data⟩) := by
  induction subs with
  | nil => cases data.error <;> simp [dispatchAll]
  | cons s rest ih =>
    have hs := hnf s (List.mem_cons_self ..)
    have hrest : ∀ x ∈ rest, (subDispatch data x).2 = false :=
      fun x hx => hnf x (List.mem_cons_of_mem _ hx)
    have ihr := ih hrest
    cases hde : data.error with
    | some e =>
      rw [hde] at ihr
      have h1 : subDispatch data s = ([⟨s.id, some e, none⟩], s.cbThrows (some e) none) := by
        unfold subDispatch
        rw [hde]
      have hcb : s.cbThrows (some e) none = false := by
        rw [h1] at hs
        exact hs
      simp [dispatchAll, h1, hcb, ihr]
    | none =>
      rw [hde] at ihr
      cases hp : s.predicate data with
      | error e =>
        exfalso
        have : (subDispatch data s).2 = true := by
          unfold subDispatch
          rw [hde, hp]
        rw [hs] at this
        exact Bool.noConfusion this
      | ok b =>
        cases b with
        | true =>
          have h1 : subDispatch data s = ([⟨s.id, none, some data⟩], s.cbThrows none (some data)) := by
            unfold subDispatch
            rw [hde, hp]
          have h2 : matchesOk data s = true := by
            unfold matchesOk
            rw [hp]
          have hcb : s.cbThrows none (some data) = false := by
            rw [h1] at hs
            exact hs
          simp [dispatchAll, h1, h2, hcb, ihr]
        | false =>
          have h1 : subDispatch data s = ([], false) := by
            unfold subDispatch
            rw [hde, hp]
          have h2 : matchesOk data s = false := by
            unfold matchesOk
            rw [hp]
          simp [dispatchAll, hs, h1, h2, ihr]

theorem C4_routing_witness :
    (∀ s ∈ [subOk, subOk3], (subDispatch (⟨some 5, "x"⟩ : Payload) s).2 = false)
    ∧ dispatchAll (⟨some 5, "x"⟩ : Payload) [subOk, subOk3] =
        [subOk, subOk3].map (fun s => ⟨s.id, some 5, none⟩) :=
  ⟨by decide, C4_error_broadcast_and_predicate_routing ⟨some 5, "x"⟩ [subOk, subOk3] (by decide)⟩

/-- C6: a `subscribe` issued while neither degraded nor opened appends the
id-bearing request to the tail of the pending queue and transmits nothing;
when the socket subsequently opens, the flush transmits exactly the queued
requests, in FIFO order (hence each exactly once), and leaves the queue
empty. -/
theorem C6_offline_subscribe_queued_then_flushed :
    (∀ (c : Client) (params : String) (pred : Payload → Except Nat Bool)
        (cbT : Option Nat → Option Payload → Bool) (rf : Option (Nat → Except Nat Payload)),
      c.usingRestfulAPI = false → c.isOpened = false →
      (step c (Event.ESubscribe params pred cbT rf)).1.messageQueue
          = c.messageQueue ++ [⟨params, c.idCounter⟩]
      ∧ ∀ m, Act.ASend m ∉ (step c (Event.ESubscribe params pred cbT rf)).2)
    ∧ (∀ (c : Client) (now : Nat), c.hasSocket = true →
      (step c (Event.EOpen now)).2 = c.messageQueue.map Act.ASend
      ∧ (step c (Event.EOpen now)).1.messageQueue = []) := by
  constructor
  · intro c params pred cbT rf hU hO
    constructor
    · simp [step, subscribe, hU, hO]
    · intro m
      simp [step, subscribe, hU, hO]
  · intro c now hS
    constructor <;> simp [step, onOpen, sendCachedMessages, openedState, stopReconnect, hS]

theorem C6_offline_subscribe_witness :
    (mkClient.usingRestfulAPI = false ∧ mkClient.isOpened = false
      ∧ ((step mkClient (Event.ESubscribe "A" predTrue cbNoThrow none)).1.messageQueue
            = mkClient.messageQueue ++ [⟨"A", mkClient.idCounter⟩]
          ∧ ∀ m, Act.ASend m ∉ (step mkClient (Event.ESubscribe "A" predTrue cbNoThrow none)).2))
    ∧ (mkClient.hasSocket = true
      ∧ ((step mkClient (Event.EOpen 3)).2 = mkClient.messageQueue.map Act.ASend
          ∧ (step mkClient (Event.EOpen 3)).1.messageQueue = [])) :=
  ⟨⟨rfl, rfl, C6_offline_subscribe_queued_then_flushed.1 mkClient "A" predTrue cbNoThrow none rfl rfl⟩,
   ⟨rfl, C6_offline_subscribe_queued_then_flushed.2 mkClient 3 rfl⟩⟩

/-- C7: when the client is opened, the idle interval is armed and the time
since the last activity exceeds the idle threshold, the idle tick snapshots
exactly the current request of every registered subscription into the queue
(overwriting it), marks the hibernation flag and closes the socket; the
resulting close event schedules no reconnect (the reconnect timer stays
unarmed) and the client ends not opened. -/
theorem C7_idle_hibernation (c : Client) (now : Nat)
    (hA : c.checkIdleTimerActive = true) (hO : c.isOpened = true)
    (hIdle : c.lastActiveTime + idleTime < now)
    (hS : c.hasSocket = true) (hT : c.reconnectTimerSet = false) :
    (run c [Event.EIdleTick now, Event.EClose]).1.messageQueue
        = c.subscriptions.map (fun s => s.message)
    ∧ (run c [Event.EIdleTick now, Event.EClose]).1.isBehind = true
    ∧ Act.AClose ∈ (run c [Event.EIdleTick now, Event.EClose]).2
    ∧ (run c [Event.EIdleTick now, Event.EClose]).1.reconnectTimerSet = false
    ∧ (run c [Event.EIdleTick now, Event.EClose]).1.isOpened = false := by
  refine ⟨?_, ?_, ?_, ?_, ?_⟩ <;>
    simp [run, step, checkIdleTime, onClose, hA, hO, hIdle, hS, hT]

theorem C7_idle_hibernation_witness :
    idleClient.checkIdleTimerActive = true ∧ idleClient.isOpened = true
    ∧ idleClient.lastActiveTime + idleTime < 600001
    ∧ idleClient.hasSocket = true ∧ idleClient.reconnectTimerSet = false
    ∧ ((run idleClient [Event.EIdleTick 600001, Event.EClose]).1.messageQueue
          = idleClient.subscriptions.map (fun s => s.message)
      ∧ (run idleClient [Event.EIdleTick 600001, Event.EClose]).1.isBehind = true
      ∧ Act.AClose ∈ (run idleClient [Event.EIdleTick 600001, Event.EClose]).2
      ∧ (run idleClient [Event.EIdleTick 600001, Event.EClose]).1.reconnectTimerSet = false
      ∧ (run idleClient [Event.EIdleTick 600001, Event.EClose]).1.isOpened = false) :=
  ⟨rfl, rfl, by decide, rfl, rfl,
   C7_idle_hibernation idleClient 600001 rfl rfl (by decide) rfl rfl⟩

/-- C8 counterexample: on the constructed client, which is not opened, the
`send` method transmits the encoded request on the socket immediately and
leaves the pending queue untouched (still empty) — it does not enqueue. -/
theorem C8_counterexample :
    mkClient.isOpened = false
    ∧ send mkClient ⟨"m", 7⟩ = (mkClient, [Act.ASend ⟨"m", 7⟩]) :=
  ⟨rfl, rfl⟩

/-- C8 amended: the `send` method itself always transmits immediately,
whatever the connection state; the queue-when-not-open behaviour belongs to
`subscribe`, which (outside degraded mode) appends the request to the tail
of the pending queue and transmits nothing while the connection is not
open; queued requests are all transmitted by the flush when the connection
reopens. -/
theorem C8_send_transmits_subscribe_queues :
    (∀ (c : Client) (m : Msg), send c m = (c, [Act.ASend m]))
    ∧ (∀ (c : Client) (params : String) (pred : Payload → Except Nat Bool)
        (cbT : Option Nat → Option Payload → Bool) (rf : Option (Nat → Except Nat Payload)),
      c.usingRestfulAPI = false → c.isOpened = false →
      (subscribe c params pred cbT rf).1.messageQueue = c.messageQueue ++ [⟨params, c.idCounter⟩]
      ∧ ∀ m, Act.ASend m ∉ (subscribe c params pred cbT rf).2)
    ∧ (∀ (c : Client) (now : Nat), c.hasSocket = true →
      (step c (Event.EOpen now)).2 = c.messageQueue.map Act.ASend
      ∧ (step c (Event.EOpen now)).1.messageQueue = []) := by
  refine ⟨fun c m => rfl, ?_, ?_⟩
  · intro c params pred cbT rf hU hO
    constructor
    · simp [subscribe, hU, hO]
    · intro m
      simp [subscribe, hU, hO]
  · intro c now hS
    constructor <;> simp [step, onOpen, sendCachedMessages, openedState, stopReconnect, hS]

theorem C8_send_queue_witness :
    (send mkClient ⟨"z", 9⟩ = (mkClient, [Act.ASend ⟨"z", 9⟩]))
    ∧ (mkClient.usingRestfulAPI = false ∧ mkClient.isOpened = false
      ∧ ((subscribe mkClient "B" predTrue cbNoThrow none).1.messageQueue
            = mkClient.messageQueue ++ [⟨"B", mkClient.idCounter⟩]
        ∧ ∀ m, Act.ASend m ∉ (subscribe mkClient "B" predTrue cbNoThrow none).2)) :=
  ⟨C8_send_transmits_subscribe_queues.1 mkClient ⟨"z", 9⟩,
   rfl, rfl, C8_send_transmits_subscribe_queues.2.1 mkClient "B" predTrue cbNoThrow none rfl rfl⟩

/-! ### Subscribe-id bookkeeping -/

theorem subIdsOf_append (l1 l2 : List Act) :
    subIdsOf (l1 ++ l2) = subIdsOf l1 ++ subIdsOf l2 := by
  simp [subIdsOf, List.filterMap_append]

theorem subIdsOf_nil_of_no_subid (l : List Act) (h : ∀ a ∈ l, ∀ n, a ≠ Act.ASubId n) :
    subIdsOf l = [] := by
  induction l with
  | nil => rfl
  | cons a rest ih =>
    have hrest := ih (fun x hx => h x (List.mem_cons_of_mem _ hx))
    unfold subIdsOf at hrest ⊢
    rw [List.filterMap_cons]
    cases a with
    | ASubId n => exact absurd rfl (h _ (List.mem_cons_self ..) n)
    | AInit => simpa using hrest
    | ASend m => simpa using hrest
    | AClose => simpa using hrest
    | APollStart i => simpa using hrest
    | ACallback ev => simpa using hrest

theorem subIdsOf_map_ASend (l : List Msg) : subIdsOf (l.map Act.ASend) = [] := by
  refine subIdsOf_nil_of_no_subid _ ?_
  intro a ha n
  rcases List.mem_map.mp ha with ⟨m, -, rfl⟩
  exact fun h => Act.noConfusion h

theorem subIdsOf_map_ACallback (l : List CallEvent) : subIdsOf (l.map Act.ACallback) = [] := by
  refine subIdsOf_nil_of_no_subid _ ?_
  intro a ha n
  rcases List.mem_map.mp ha with ⟨m, -, rfl⟩
  exact fun h => Act.noConfusion h

/-- Every step either returns no subscribe id without decreasing the id
counter, or returns exactly the current counter and bumps it by one. -/
theorem step_subIds (c : Client) (e : Event) :
    (subIdsOf (step c e).2 = [] ∧ c.idCounter ≤ (step c e).1.idCounter)
    ∨ (subIdsOf (step c e).2 = [c.idCounter] ∧ (step c e).1.idCounter = c.idCounter + 1) := by
  cases e with
  | EOpen now =>
    left
    by_cases hS : c.hasSocket = true
    · constructor
      · simp [step, hS, onOpen, sendCachedMessages, openedState, subIdsOf_map_ASend]
      · simp [step, hS, onOpen, sendCachedMessages, openedState, stopReconnect]
    · simp only [Bool.not_eq_true] at hS
      simp [step, hS, subIdsOf]
  | EClose =>
    left
    by_cases hS : c.hasSocket = true
    · simp only [step]
      rw [if_pos hS]
      unfold onClose
      constructor
      · split <;> simp [subIdsOf]
      · split <;> simp [reconnect]
    · simp only [Bool.not_eq_true] at hS
      simp [step, hS, subIdsOf]
  | EError =>
    left
    by_cases hS : c.hasSocket = true <;>
      simp_all [step, subIdsOf]
  | EMessage data =>
    left
    by_cases hO : c.isOpened = true
    · simp [step, hO, onMessage, subIdsOf_map_ACallback]
    · simp only [Bool.not_eq_true] at hO
      simp [step, hO, subIdsOf]
  | ETimerFire =>
    left
    by_cases hT : c.reconnectTimerSet = true
    · simp only [step]
      rw [if_pos hT]
      unfold reconnectTimerFire
      by_cases hC : ({ c with reconnectTimerSet := false } : Client).reconnectCount ≥ 2
      · rw [if_pos hC]
        obtain ⟨f, hf, hst, hacts⟩ := pollRestfulAPI_shape
          ({ stopReconnect { c with reconnectTimerSet := false } with usingRestfulAPI := true } : Client) none
        constructor
        · refine subIdsOf_nil_of_no_subid _ ?_
          intro a ha n
          obtain ⟨i, hi, -⟩ := hacts a ha
          rw [hi]
          exact fun h => Act.noConfusion h
        · rw [hst]
          exact Nat.le_refl _
      · rw [if_neg hC]
        simp [subIdsOf]
    · simp only [Bool.not_eq_true] at hT
      simp [step, hT, subIdsOf]
  | EIdleTick now =>
    left
    by_cases hA : c.checkIdleTimerActive = true
    · simp only [step]
      rw [if_pos hA]
      unfold checkIdleTime
      constructor
      · split <;> simp [subIdsOf]
      · split <;> simp
    · simp only [Bool.not_eq_true] at hA
      simp [step, hA, subIdsOf]
  | ESubscribe params pred cbT rf =>
    right
    by_cases hU : c.usingRestfulAPI = true
    · obtain ⟨f, hf, hst, hacts⟩ := subscribe_degraded_shape c params pred cbT rf hU
      constructor
      · show subIdsOf (subscribe c params pred cbT rf).2 = [c.idCounter]
        unfold subscribe
        rw [if_pos (show ({ c with
            idCounter := c.idCounter + 1,
            subscriptions := c.subscriptions ++
              [⟨c.idCounter, ⟨params, c.idCounter⟩, pred, cbT, rf, none⟩] } : Client).usingRestfulAPI = true from hU)]
        show subIdsOf (Act.ASubId c.idCounter :: _) = [c.idCounter]
        unfold subIdsOf
        rw [List.filterMap_cons]
        obtain ⟨f2, hf2, hst2, hacts2⟩ := pollRestfulAPI_shape
          ({ c with
              idCounter := c.idCounter + 1,
              subscriptions := c.subscriptions ++
                [⟨c.idCounter, ⟨params, c.idCounter⟩, pred, cbT, rf, none⟩] } : Client) (some c.idCounter)
        have : subIdsOf (pollRestfulAPI ({ c with
            idCounter := c.idCounter + 1,
            subscriptions := c.subscriptions ++
              [⟨c.idCounter, ⟨params, c.idCounter⟩, pred, cbT, rf, none⟩] } : Client) (some c.idCounter)).2 = [] := by
          refine subIdsOf_nil_of_no_subid _ ?_
          intro a ha n
          obtain ⟨i, hi, -⟩ := hacts2 a ha
          rw [hi]
          exact fun h => Act.noConfusion h
        unfold subIdsOf at this
        simp [this]
      · show (subscribe c params pred cbT rf).1.idCounter = c.idCounter + 1
        rw [hst]
    · simp only [Bool.not_eq_true] at hU
      by_cases hO : c.isOpened = true <;>
        simp [step, subscribe, hU, hO, subIdsOf]
  | EUnsubscribe id params =>
    left
    simp only [step]
    unfold unsubscribe stopPollingById
    dsimp only
    constructor
    · split <;> simp [subIdsOf]
    · split <;> simp
  | EVisibility hidden now =>
    left
    cases hidden with
    | true =>
      simp only [step]
      unfold handleVisibilityChange
      rw [if_pos rfl]
      unfold checkIdleTime
      constructor
      · split <;> simp [subIdsOf]
      · split <;> simp
    | false =>
      simp only [step]
      unfold handleVisibilityChange
      rw [if_neg (by simp)]
      constructor
      · split <;> simp [subIdsOf, reconnect]
      · split <;> simp [reconnect]

theorem step_idCounter_le (c : Client) (e : Event) : c.idCounter ≤ (step c e).1.idCounter := by
  rcases step_subIds c e with ⟨-, h⟩ | ⟨-, h⟩
  · exact h
  · omega

theorem run_subIds_lower (evs : List Event) : ∀ (c : Client) (n : Nat),
    n ∈ subIdsOf (run c evs).2 → c.idCounter ≤ n := by
  induction evs with
  | nil =>
    intro c n h
    simp [run, subIdsOf] at h
  | cons e es ih =>
    intro c n h
    simp only [run] at h
    rw [subIdsOf_append] at h
    rcases List.mem_append.mp h with h1 | h2
    · rcases step_subIds c e with ⟨hnil, -⟩ | ⟨hone, -⟩
      · rw [hnil] at h1
        simp at h1
      · rw [hone] at h1
        simp at h1
        omega
    · exact le_trans (step_idCounter_le c e) (ih _ n h2)

theorem run_subIds_pairwise (evs : List Event) : ∀ c : Client,
    List.Pairwise (· < ·) (subIdsOf (run c evs).2) := by
  induction evs with
  | nil =>
    intro c
    simp [run, subIdsOf]
  | cons e es ih =>
    intro c
    simp only [run]
    rw [subIdsOf_append, List.pairwise_append]
    refine ⟨?_, ih _, ?_⟩
    · rcases step_subIds c e with ⟨hnil, -⟩ | ⟨hone, -⟩
      · rw [hnil]
        exact List.Pairwise.nil
      · rw [hone]
        simp
    · intro x hx y hy
      rcases step_subIds c e with ⟨hnil, -⟩ | ⟨hone, hid⟩
      · rw [hnil] at hx
        simp at hx
      · rw [hone] at hx
        simp at hx
        subst hx
        have hlow := run_subIds_lower es (step c e).1 y hy
        omega

/-- C5: along any event schedule on one client instance, the ids returned by
the successive `subscribe` calls are strictly increasing in call order
(hence pairwise distinct). -/
theorem C5_subscribe_ids_strictly_increasing (evs : List Event) :
    List.Pairwise (· < ·) (subIdsOf (run mkClient evs).2) :=
  run_subIds_pairwise evs mkClient

/-! ### Halting of the polling loop, and push dispatch after unsubscribe -/

theorem pollStep_stopped_check (pred : Payload → Except Nat Bool)
    (cb : Option Nat → Option Payload → Except Nat Unit) (s : PollState) (e : PollEvent)
    (h1 : s.shouldStop = true) (h2 : s.phase = PollPhase.check ∨ s.phase = PollPhase.done) :
    (pollStep pred cb s e).callLog = s.callLog ∧ (pollStep pred cb s e).shouldStop = true
    ∧ ((pollStep pred cb s e).phase = PollPhase.check
        ∨ (pollStep pred cb s e).phase = PollPhase.done) := by
  cases e with
  | tick =>
    rcases h2 with h | h
    · simp [pollStep, h, h1]
    · simp [pollStep, h, h1]
  | fetchDone res =>
    rcases h2 with h | h <;> simp [pollStep, h, h1]
  | sleepDone =>
    rcases h2 with h | h <;> simp [pollStep, h, h1]
  | unsub =>
    rcases h2 with h | h <;> simp [pollStep, h]

theorem pollRun_stopped_at_check (pred : Payload → Except Nat Bool)
    (cb : Option Nat → Option Payload → Except Nat Unit) (evs : List PollEvent) :
    ∀ s : PollState, s.shouldStop = true →
    (s.phase = PollPhase.check ∨ s.phase = PollPhase.done) →
    (pollRun pred cb s evs).callLog = s.callLog := by
  induction evs with
  | nil =>
    intro s h1 h2
    rfl
  | cons e es ih =>
    intro s h1 h2
    obtain ⟨hlog, hstop, hphase⟩ := pollStep_stopped_check pred cb s e h1 h2
    show (pollRun pred cb (pollStep pred cb s e) es).callLog = s.callLog
    rw [ih _ hstop hphase, hlog]

theorem pollStep_stopped_bound (pred : Payload → Except Nat Bool)
    (cb : Option Nat → Option Payload → Except Nat Unit) (s : PollState) (e : PollEvent)
    (h1 : s.shouldStop = true) :
    (pollStep pred cb s e).shouldStop = true ∧
    (pollStep pred cb s e).callLog.length + pollAllowance (pollStep pred cb s e)
      ≤ s.callLog.length + pollAllowance s := by
  cases e with
  | tick =>
    by_cases hp : s.phase = PollPhase.check
    · simp [pollStep, hp, h1, pollAllowance]
    · simp [pollStep, hp, h1]
  | fetchDone res =>
    by_cases hp : s.phase = PollPhase.fetching
    · cases res with
      | ok p =>
        cases hpred : pred p with
        | ok b =>
          cases b with
          | true =>
            cases hcb : cb none (some p) with
            | ok u => simp [pollStep, hp, hpred, hcb, h1, pollAllowance]
            | error e2 =>
              cases hcb2 : cb (some e2) none with
              | ok u => simp [pollStep, hp, hpred, hcb, hcb2, h1, pollAllowance]
              | error e3 => simp [pollStep, hp, hpred, hcb, hcb2, h1, pollAllowance]
          | false => simp [pollStep, hp, hpred, h1, pollAllowance]
        | error er =>
          cases hcb : cb (some er) none with
          | ok u => simp [pollStep, hp, hpred, hcb, h1, pollAllowance]
          | error e3 => simp [pollStep, hp, hpred, hcb, h1, pollAllowance]
      | error er =>
        cases hcb : cb (some er) none with
        | ok u => simp [pollStep, hp, hcb, h1, pollAllowance]
        | error e3 => simp [pollStep, hp, hcb, h1, pollAllowance]
    · simp [pollStep, hp, h1]
  | sleepDone =>
    by_cases hp : s.phase = PollPhase.sleeping
    · simp [pollStep, hp, h1, pollAllowance]
    · simp [pollStep, hp, h1]
  | unsub =>
    simp [pollStep, h1, pollAllowance]

theorem pollRun_stopped_bound (pred : Payload → Except Nat Bool)
    (cb : Option Nat → Option Payload → Except Nat Unit) (evs : List PollEvent) :
    ∀ s : PollState, s.shouldStop = true →
    (pollRun pred cb s evs).callLog.length ≤ s.callLog.length + pollAllowance s := by
  induction evs with
  | nil =>
    intro s h1
    exact Nat.le_add_right _ _
  | cons e es ih =>
    intro s h1
    obtain ⟨hstop, hle⟩ := pollStep_stopped_bound pred cb s e h1
    show (pollRun pred cb (pollStep pred cb s e) es).callLog.length
        ≤ s.callLog.length + pollAllowance s
    exact le_trans (ih _ hstop) hle

theorem subDispatch_subId (data : Payload) (s : Subscription) (ev : CallEvent)
    (h : ev ∈ (subDispatch data s).1) : ev.subId = s.id := by
  unfold subDispatch at h
  cases hde : data.error with
  | some e =>
    rw [hde] at h
    simp at h
    rw [h]
  | none =>
    rw [hde] at h
    cases hp : s.predicate data with
    | error e =>
      rw [hp] at h
      simp at h
    | ok b =>
      rw [hp] at h
      cases b with
      | true =>
        simp at h
        rw [h]
      | false => simp at h

theorem dispatchAll_subId (data : Payload) (subs : List Subscription) (ev : CallEvent)
    (h : ev ∈ dispatchAll data subs) : ∃ s ∈ subs, ev.subId = s.id := by
  induction subs with
  | nil => simp [dispatchAll] at h
  | cons s rest ih =>
    unfold dispatchAll at h
    by_cases ht : (subDispatch data s).2 = true
    · rw [if_pos ht] at h
      exact ⟨s, List.mem_cons_self .., subDispatch_subId data s ev h⟩
    · rw [if_neg ht] at h
      rcases List.mem_append.mp h with h1 | h2
      · exact ⟨s, List.mem_cons_self .., subDispatch_subId data s ev h1⟩
      · obtain ⟨t, htmem, htid⟩ := ih h2
        exact ⟨t, List.mem_cons_of_mem _ htmem, htid⟩

/-- Any dispatched callback invocation targets a currently registered
subscription. -/
theorem step_callback_sources (c : Client) (e : Event) (ev : CallEvent)
    (h : Act.ACallback ev ∈ (step c e).2) : ∃ s ∈ c.subscriptions, ev.subId = s.id := by
  cases e with
  | EOpen now =>
    exfalso
    by_cases hS : c.hasSocket = true
    · simp only [step] at h
      rw [if_pos hS] at h
      have : Act.ACallback ev ∈ (sendCachedMessages (openedState c now)).2 := h
      unfold sendCachedMessages openedState at this
      rw [if_pos rfl] at this
      rcases List.mem_map.mp this with ⟨m, -, hm⟩
      exact Act.noConfusion hm
    · simp only [Bool.not_eq_true] at hS
      simp [step, hS] at h
  | EClose =>
    exfalso
    by_cases hS : c.hasSocket = true
    · simp only [step] at h
      rw [if_pos hS] at h
      unfold onClose at h
      rcases (by split at h <;> simp at h : False)
    · simp only [Bool.not_eq_true] at hS
      simp [step, hS] at h
  | EError =>
    exfalso
    by_cases hS : c.hasSocket = true <;> simp_all [step]
  | EMessage data =>
    by_cases hO : c.isOpened = true
    · simp only [step] at h
      rw [if_pos hO] at h
      unfold onMessage at h
      rcases List.mem_map.mp h with ⟨ev2, hev2, heq⟩
      have hev : ev = ev2 := (Act.ACallback.inj heq).symm
      rw [hev]
      exact dispatchAll_subId data c.subscriptions ev2 hev2
    · simp only [Bool.not_eq_true] at hO
      simp [step, hO] at h
  | ETimerFire =>
    exfalso
    by_cases hT : c.reconnectTimerSet = true
    · simp only [step] at h
      rw [if_pos hT] at h
      unfold reconnectTimerFire at h
      by_cases hC : ({ c with reconnectTimerSet := false } : Client).reconnectCount ≥ 2
      · rw [if_pos hC] at h
        obtain ⟨f, hf, hst, hacts⟩ := pollRestfulAPI_shape
          ({ stopReconnect { c with reconnectTimerSet := false } with usingRestfulAPI := true } : Client) none
        obtain ⟨i, hi, -⟩ := hacts _ h
        exact Act.noConfusion hi
      · rw [if_neg hC] at h
        simp at h
    · simp only [Bool.not_eq_true] at hT
      simp [step, hT] at h
  | EIdleTick now =>
    exfalso
    by_cases hA : c.checkIdleTimerActive = true
    · simp only [step] at h
      rw [if_pos hA] at h
      unfold checkIdleTime at h
      rcases (by split at h <;> simp at h : False)
    · simp only [Bool.not_eq_true] at hA
      simp [step, hA] at h
  | ESubscribe params pred cbT rf =>
    exfalso
    by_cases hU : c.usingRestfulAPI = true
    · obtain ⟨f, hf, hst, hacts⟩ := subscribe_degraded_shape c params pred cbT rf hU
      rcases hacts _ h with h1 | ⟨i, hi, -⟩
      · exact Act.noConfusion h1
      · exact Act.noConfusion hi
    · simp only [Bool.not_eq_true] at hU
      by_cases hO : c.isOpened = true <;> simp [step, subscribe, hU, hO] at h
  | EUnsubscribe id params =>
    exfalso
    simp only [step] at h
    unfold unsubscribe stopPollingById at h
    dsimp only at h
    rcases (by split at h <;> simp at h : False)
  | EVisibility hidden now =>
    exfalso
    cases hidden with
    | true =>
      simp only [step] at h
      unfold handleVisibilityChange at h
      rw [if_pos rfl] at h
      unfold checkIdleTime at h
      rcases (by split at h <;> simp at h : False)
    | false =>
      simp only [step] at h
      unfold handleVisibilityChange at h
      rw [if_neg (by simp)] at h
      rcases (by split at h <;> simp at h : False)

/-- Per-step effect on the registry: either the subscriptions are only
remapped (`shouldStop` flips), or one fresh subscription carrying the
current counter is appended (and the counter bumped), or entries of one id
are filtered out; the id counter never decreases. -/
theorem step_registry_shape (c : Client) (e : Event) :
    ∃ f, OnlyStop f ∧
      (((step c e).1.subscriptions = c.subscriptions.map f
          ∧ c.idCounter ≤ (step c e).1.idCounter)
       ∨ (∃ params pred cbT rf, (step c e).1.subscriptions
            = (c.subscriptions ++ [(⟨c.idCounter, ⟨params, c.idCounter⟩, pred, cbT, rf, none⟩ : Subscription)]).map f
          ∧ (step c e).1.idCounter = c.idCounter + 1)
       ∨ (∃ id2, (step c e).1.subscriptions = (c.subscriptions.map f).filter (fun s => s.id != id2)
          ∧ c.idCounter ≤ (step c e).1.idCounter)) := by
  cases e with
  | EOpen now =>
    refine ⟨fun s => s, onlyStop_id, Or.inl ⟨?_, ?_⟩⟩ <;>
      by_cases hS : c.hasSocket = true <;>
        simp_all [step, onOpen, sendCachedMessages, openedState, stopReconnect]
  | EClose =>
    refine ⟨fun s => s, onlyStop_id, Or.inl ⟨?_, ?_⟩⟩ <;>
      (by_cases hS : c.hasSocket = true
       · simp only [step]
         rw [if_pos hS]
         unfold onClose
         split <;> simp [reconnect]
       · simp_all [step])
  | EError =>
    refine ⟨fun s => s, onlyStop_id, Or.inl ⟨?_, ?_⟩⟩ <;>
      by_cases hS : c.hasSocket = true <;> simp_all [step]
  | EMessage data =>
    refine ⟨fun s => s, onlyStop_id, Or.inl ⟨?_, ?_⟩⟩ <;>
      by_cases hO : c.isOpened = true <;> simp_all [step, onMessage]
  | ETimerFire =>
    by_cases hT : c.reconnectTimerSet = true
    · by_cases hC : ({ c with reconnectTimerSet := false } : Client).reconnectCount ≥ 2
      · obtain ⟨f, hf, hst, -⟩ := pollRestfulAPI_shape
          ({ stopReconnect { c with reconnectTimerSet := false } with usingRestfulAPI := true } : Client) none
        refine ⟨f, hf, Or.inl ⟨?_, ?_⟩⟩ <;>
          (simp only [step]
           rw [if_pos hT]
           unfold reconnectTimerFire
           rw [if_pos hC]
           rw [hst]
           simp [stopReconnect])
      · refine ⟨fun s => s, onlyStop_id, Or.inl ⟨?_, ?_⟩⟩
        · simp only [step]
          rw [if_pos hT]
          unfold reconnectTimerFire
          rw [if_neg hC]
          simp
        · simp only [step]
          rw [if_pos hT]
          unfold reconnectTimerFire
          rw [if_neg hC]
    · refine ⟨fun s => s, onlyStop_id, Or.inl ⟨?_, ?_⟩⟩ <;> simp_all [step]
  | EIdleTick now =>
    refine ⟨fun s => s, onlyStop_id, Or.inl ⟨?_, ?_⟩⟩ <;>
      (by_cases hA : c.checkIdleTimerActive = true
       · simp only [step]
         rw [if_pos hA]
         unfold checkIdleTime
         split <;> simp
       · simp_all [step])
  | ESubscribe params pred cbT rf =>
    by_cases hU : c.usingRestfulAPI = true
    · obtain ⟨f, hf, hst, -⟩ := subscribe_degraded_shape c params pred cbT rf hU
      refine ⟨f, hf, Or.inr (Or.inl ⟨params, pred, cbT, rf, ?_, ?_⟩)⟩ <;>
        (show _ = _
         rw [show (step c (Event.ESubscribe params pred cbT rf)).1
              = (subscribe c params pred cbT rf).1 from rfl, hst])
    · refine ⟨fun s => s, onlyStop_id, Or.inr (Or.inl ⟨params, pred, cbT, rf, ?_, ?_⟩)⟩ <;>
        (simp only [Bool.not_eq_true] at hU
         by_cases hO : c.isOpened = true <;> simp [step, subscribe, hU, hO])
  | EUnsubscribe id params =>
    refine ⟨fun s => if s.id = id then { s with shouldStop := some true } else s,
      ?_, Or.inr (Or.inr ⟨id, ?_, ?_⟩)⟩
    · intro s
      by_cases h : s.id = id <;> simp [h]
    · simp only [step]
      unfold unsubscribe stopPollingById
      dsimp only
      split <;> rfl
    · simp only [step]
      unfold unsubscribe stopPollingById
      dsimp only
      split <;> simp
  | EVisibility hidden now =>
    refine ⟨fun s => s, onlyStop_id, Or.inl ⟨?_, ?_⟩⟩ <;>
      (cases hidden with
       | true =>
         simp only [step]
         unfold handleVisibilityChange
         rw [if_pos rfl]
         unfold checkIdleTime
         split <;> simp
       | false =>
         simp only [step]
         unfold handleVisibilityChange
         rw [if_neg (by simp)]
         split <;> simp [reconnect])

/-- Once an id is below the counter and absent from the registry, every step
keeps it absent (ids are never reused), and pull-fallback absence for an id
is likewise preserved. -/
theorem step_preserves_tracking (c : Client) (e : Event) (id : Nat)
    (hB : IdsBelow c) (hLt : id < c.idCounter) :
    IdsBelow (step c e).1 ∧ id < (step c e).1.idCounter
    ∧ (NotRegistered c id → NotRegistered (step c e).1 id)
    ∧ (NoRfFor c id → NoRfFor (step c e).1 id) := by
  obtain ⟨f, hf, hcase⟩ := step_registry_shape c e
  rcases hcase with ⟨hsubs, hle⟩ | ⟨params, pred, cbT, rf, hsubs, hid⟩ | ⟨id2, hsubs, hle⟩
  · refine ⟨?_, lt_of_lt_of_le hLt hle, ?_, ?_⟩
    · intro s hs
      rw [hsubs] at hs
      rcases List.mem_map.mp hs with ⟨t, htmem, rfl⟩
      have h1 := (hf t).1
      have h2 := hB t htmem
      omega
    · intro hN s hs
      rw [hsubs] at hs
      rcases List.mem_map.mp hs with ⟨t, htmem, rfl⟩
      rw [(hf t).1]
      exact hN t htmem
    · intro hRf s hs hsid
      rw [hsubs] at hs
      rcases List.mem_map.mp hs with ⟨t, htmem, rfl⟩
      rw [(hf t).2.2]
      refine hRf t htmem ?_
      rw [← (hf t).1]
      exact hsid
  · refine ⟨?_, by omega, ?_, ?_⟩
    · intro s hs
      rw [hsubs] at hs
      rcases List.mem_map.mp hs with ⟨t, htmem, rfl⟩
      rcases List.mem_append.mp htmem with ht | ht
      · have h1 := (hf t).1
        have h2 := hB t ht
        omega
      · simp at ht
        have h1 : (f t).id = c.idCounter := by rw [(hf t).1, ht]
        omega
    · intro hN s hs
      rw [hsubs] at hs
      rcases List.mem_map.mp hs with ⟨t, htmem, rfl⟩
      rcases List.mem_append.mp htmem with ht | ht
      · rw [(hf t).1]
        exact hN t ht
      · simp at ht
        have h1 : (f t).id = c.idCounter := by rw [(hf t).1, ht]
        omega
    · intro hRf s hs hsid
      rw [hsubs] at hs
      rcases List.mem_map.mp hs with ⟨t, htmem, rfl⟩
      rcases List.mem_append.mp htmem with ht | ht
      · rw [(hf t).2.2]
        refine hRf t ht ?_
        rw [← (hf t).1]
        exact hsid
      · exfalso
        simp at ht
        have h1 : (f t).id = c.idCounter := by rw [(hf t).1, ht]
        rw [hsid] at h1
        omega
  · refine ⟨?_, lt_of_lt_of_le hLt hle, ?_, ?_⟩
    · intro s hs
      rw [hsubs] at hs
      have hs2 := (List.mem_filter.mp hs).1
      rcases List.mem_map.mp hs2 with ⟨t, htmem, rfl⟩
      have h1 := (hf t).1
      have h2 := hB t htmem
      omega
    · intro hN s hs
      rw [hsubs] at hs
      have hs2 := (List.mem_filter.mp hs).1
      rcases List.mem_map.mp hs2 with ⟨t, htmem, rfl⟩
      rw [(hf t).1]
      exact hN t htmem
    · intro hRf s hs hsid
      rw [hsubs] at hs
      have hs2 := (List.mem_filter.mp hs).1
      rcases List.mem_map.mp hs2 with ⟨t, htmem, rfl⟩
      rw [(hf t).2.2]
      refine hRf t htmem ?_
      rw [← (hf t).1]
      exact hsid

theorem run_no_callback_unregistered (evs : List Event) : ∀ (c : Client) (id : Nat),
    IdsBelow c → id < c.idCounter → NotRegistered c id →
    ∀ ev, Act.ACallback ev ∈ (run c evs).2 → ev.subId ≠ id := by
  induction evs with
  | nil =>
    intro c id _ _ _ ev h
    simp [run] at h
  | cons e es ih =>
    intro c id hB hLt hN ev h
    simp only [run] at h
    rcases List.mem_append.mp h with h1 | h2
    · obtain ⟨s, hsmem, hsid⟩ := step_callback_sources c e ev h1
      rw [hsid]
      exact hN s hsmem
    · obtain ⟨hB2, hLt2, hNpres, -⟩ := step_preserves_tracking c e id hB hLt
      exact ih _ id hB2 hLt2 (hNpres hN) ev h2

theorem self_mem_runStates (c : Client) (evs : List Event) : c ∈ runStates c evs := by
  cases evs <;> simp [runStates]

/-- C9 counterexample: the polling loop passes its guard and starts a fetch;
`unsubscribe` (the stop request) arrives while the fetch is in flight; when
the fetch then resolves, the loop still invokes the subscription's callback
— an `onResult` invocation after `unsubscribe` returned, contradicting the
claim that no callback invocation happens after that point. -/
theorem C9_counterexample :
    (pollRun predTrue cbOk ⟨PollPhase.check, true, false, []⟩
        [PollEvent.tick, PollEvent.unsub]).callLog = []
    ∧ (pollRun predTrue cbOk ⟨PollPhase.check, true, false, []⟩
        [PollEvent.tick, PollEvent.unsub, PollEvent.fetchDone (Except.ok pay)]).callLog
      = [(none, some pay)] :=
  ⟨rfl, rfl⟩

/-- C9 amended: `unsubscribe` sets the stop flag on the registered
subscription object; once the stop flag is set, a polling loop sitting at
its guard (or already exited) performs no further callback invocation
whatever happens; in general only the single already-in-flight fetch can
still produce invocations, and at most the two its loop body can make —
`callback(null, response)` plus, when that invocation throws, the catch
path's `callback(error, null)` — a double invocation the loop really
performs, as the closed conjunct shows; and after `unsubscribe(id)` no push
dispatch invocation for that id ever occurs again (ids are never reused). -/
theorem C9_unsubscribe_halts_polling_and_push :
    (∀ (c : Client) (id : Nat), ∀ s ∈ (stopPollingById c id).subscriptions,
        s.id = id → s.shouldStop = some true)
    ∧ (∀ (pred : Payload → Except Nat Bool) (cb : Option Nat → Option Payload → Except Nat Unit)
        (s : PollState) (evs : List PollEvent),
        s.shouldStop = true → (s.phase = PollPhase.check ∨ s.phase = PollPhase.done) →
        (pollRun pred cb s evs).callLog = s.callLog)
    ∧ (∀ (pred : Payload → Except Nat Bool) (cb : Option Nat → Option Payload → Except Nat Unit)
        (s : PollState) (evs : List PollEvent),
        s.shouldStop = true →
        (pollRun pred cb s evs).callLog.length ≤ s.callLog.length + pollAllowance s)
    ∧ (pollRun predTrue cbThrowOnSuccess ⟨PollPhase.fetching, true, true, []⟩
        [PollEvent.fetchDone (Except.ok pay)]).callLog = [(none, some pay), (some 7, none)]
    ∧ (∀ (c : Client) (id : Nat) (params : String) (evs : List Event),
        IdsBelow c → id < c.idCounter →
        ∀ ev, Act.ACallback ev ∈ (run (unsubscribe c id params).1 evs).2 → ev.subId ≠ id) := by
  refine ⟨?_, fun pred cb s evs => pollRun_stopped_at_check pred cb evs s,
    fun pred cb s evs => pollRun_stopped_bound pred cb evs s, rfl, ?_⟩
  · intro c id s hs hsid
    unfold stopPollingById at hs
    simp only [List.mem_map] at hs
    obtain ⟨t, htmem, rfl⟩ := hs
    by_cases h : t.id = id
    · simp [h]
    · rw [if_neg h] at hsid
      exact absurd hsid h
  · intro c id params evs hB hLt ev h
    have hpres := step_preserves_tracking c (Event.EUnsubscribe id params) id hB hLt
    have hNreg : NotRegistered (unsubscribe c id params).1 id := by
      intro s hs
      unfold unsubscribe stopPollingById at hs
      dsimp only at hs
      split at hs
      · simp only [List.mem_filter] at hs
        simpa using hs.2
      · simp only [List.mem_filter] at hs
        simpa using hs.2
    exact run_no_callback_unregistered evs (unsubscribe c id params).1 id
      hpres.1 hpres.2.1 hNreg ev h

theorem C9_halts_witness :
    ((⟨PollPhase.check, true, true, []⟩ : PollState).shouldStop = true)
    ∧ ((⟨PollPhase.check, true, true, []⟩ : PollState).phase = PollPhase.check
        ∨ (⟨PollPhase.check, true, true, []⟩ : PollState).phase = PollPhase.done)
    ∧ (pollRun predTrue cbThrowOnSuccess ⟨PollPhase.check, true, true, []⟩
        [PollEvent.tick, PollEvent.fetchDone (Except.ok pay), PollEvent.sleepDone,
         PollEvent.tick]).callLog
      = (⟨PollPhase.check, true, true, []⟩ : PollState).callLog :=
  ⟨rfl, Or.inl rfl,
   C9_unsubscribe_halts_polling_and_push.2.1 predTrue cbThrowOnSuccess
     ⟨PollPhase.check, true, true, []⟩
     [PollEvent.tick, PollEvent.fetchDone (Except.ok pay), PollEvent.sleepDone, PollEvent.tick]
     rfl (Or.inl rfl)⟩

/-- While the client is degraded (and stays degraded over this step), no
transmission, no push-dispatch invocation and no poll-loop start for an id
registered without a pull fallback can be emitted, and the client stays not
opened. -/
theorem step_degraded_inert (c : Client) (e : Event) (id : Nat)
    (hO : c.isOpened = false) (hU : c.usingRestfulAPI = true)
    (hRf : NoRfFor c id) (hLt : id < c.idCounter)
    (hU2 : (step c e).1.usingRestfulAPI = true) :
    (∀ a ∈ (step c e).2,
        (∀ ev, a ≠ Act.ACallback ev) ∧ a ≠ Act.APollStart id ∧ ∀ m, a ≠ Act.ASend m)
    ∧ (step c e).1.isOpened = false := by
  cases e with
  | EOpen now =>
    by_cases hS : c.hasSocket = true
    · exfalso
      simp only [step] at hU2
      rw [if_pos hS] at hU2
      simp [onOpen, sendCachedMessages, openedState, stopReconnect] at hU2
    · simp only [Bool.not_eq_true] at hS
      constructor
      · intro a ha
        simp [step, hS] at ha
      · simp [step, hS, hO]
  | EClose =>
    by_cases hS : c.hasSocket = true
    · constructor
      · intro a ha
        simp only [step] at ha
        rw [if_pos hS] at ha
        unfold onClose at ha
        split at ha <;> simp at ha
      · simp only [step]
        rw [if_pos hS]
        unfold onClose
        split <;> simp [reconnect]
    · simp only [Bool.not_eq_true] at hS
      constructor
      · intro a ha
        simp [step, hS] at ha
      · simp [step, hS, hO]
  | EError =>
    by_cases hS : c.hasSocket = true
    · constructor
      · intro a ha
        simp [step, hS] at ha
      · simp [step, hS]
    · simp only [Bool.not_eq_true] at hS
      constructor
      · intro a ha
        simp [step, hS] at ha
      · simp [step, hS, hO]
  | EMessage data =>
    constructor
    · intro a ha
      simp [step, hO] at ha
    · simp [step, hO]
  | ETimerFire =>
    by_cases hT : c.reconnectTimerSet = true
    · by_cases hC : ({ c with reconnectTimerSet := false } : Client).reconnectCount ≥ 2
      · obtain ⟨f, hf, hst, hacts⟩ := pollRestfulAPI_shape
          ({ stopReconnect { c with reconnectTimerSet := false } with usingRestfulAPI := true } : Client) none
        constructor
        · intro a ha
          simp only [step] at ha
          rw [if_pos hT] at ha
          unfold reconnectTimerFire at ha
          rw [if_pos hC] at ha
          obtain ⟨i, hi, s, hsmem, hsid, hsrf⟩ := hacts a ha
          refine ⟨fun ev => by rw [hi]; exact fun h => Act.noConfusion h, ?_,
            fun m => by rw [hi]; exact fun h => Act.noConfusion h⟩
          rw [hi]
          intro hcontra
          have hieq : i = id := by
            injection hcontra
          have : s.restfulApiFunc = none := hRf s hsmem (by rw [hsid, hieq])
          rw [this] at hsrf
          exact Bool.noConfusion hsrf
        · simp only [step]
          rw [if_pos hT]
          unfold reconnectTimerFire
          rw [if_pos hC]
          rw [hst]
          simp [stopReconnect, hO]
      · constructor
        · intro a ha
          simp only [step] at ha
          rw [if_pos hT] at ha
          unfold reconnectTimerFire at ha
          rw [if_neg hC] at ha
          simp at ha
          rw [ha]
          exact ⟨fun ev h => Act.noConfusion h, fun h => Act.noConfusion h,
            fun m h => Act.noConfusion h⟩
        · simp only [step]
          rw [if_pos hT]
          unfold reconnectTimerFire
          rw [if_neg hC]
          exact hO
    · simp only [Bool.not_eq_true] at hT
      constructor
      · intro a ha
        simp [step, hT] at ha
      · simp [step, hT, hO]
  | EIdleTick now =>
    by_cases hA : c.checkIdleTimerActive = true
    · constructor
      · intro a ha
        simp only [step] at ha
        rw [if_pos hA] at ha
        unfold checkIdleTime at ha
        rw [if_neg (by simp [hO])] at ha
        simp at ha
      · simp only [step]
        rw [if_pos hA]
        unfold checkIdleTime
        rw [if_neg (by simp [hO])]
        exact hO
    · simp only [Bool.not_eq_true] at hA
      constructor
      · intro a ha
        simp [step, hA] at ha
      · simp [step, hA, hO]
  | ESubscribe params pred cbT rf =>
    obtain ⟨f, hf, hst, hacts⟩ := subscribe_degraded_shape c params pred cbT rf hU
    constructor
    · intro a ha
      rcases hacts a ha with h1 | ⟨i, hi, s, hsmem, hsid, hsrf⟩
      · rw [h1]
        exact ⟨fun ev h => Act.noConfusion h, fun h => Act.noConfusion h,
          fun m h => Act.noConfusion h⟩
      · refine ⟨fun ev => by rw [hi]; exact fun h => Act.noConfusion h, ?_,
          fun m => by rw [hi]; exact fun h => Act.noConfusion h⟩
        rw [hi]
        intro hcontra
        have hieq : i = id := by
          injection hcontra
        rcases List.mem_append.mp hsmem with hmem | hmem
        · have : s.restfulApiFunc = none := hRf s hmem (by rw [hsid, hieq])
          rw [this] at hsrf
          exact Bool.noConfusion hsrf
        · simp at hmem
          rw [hmem] at hsid
          simp at hsid
          omega
    · show (subscribe c params pred cbT rf).1.isOpened = false
      rw [hst]
      exact hO
  | EUnsubscribe id2 params =>
    constructor
    · intro a ha
      simp only [step] at ha
      unfold unsubscribe stopPollingById at ha
      dsimp only at ha
      rw [if_neg (by simp [hO])] at ha
      simp at ha
    · simp only [step]
      unfold unsubscribe stopPollingById
      dsimp only
      rw [if_neg (by simp [hO])]
      exact hO
  | EVisibility hidden now =>
    cases hidden with
    | true =>
      constructor
      · intro a ha
        simp only [step] at ha
        unfold handleVisibilityChange at ha
        rw [if_pos rfl] at ha
        unfold checkIdleTime at ha
        rw [if_neg (by simp [hO])] at ha
        simp at ha
      · simp only [step]
        unfold handleVisibilityChange
        rw [if_pos rfl]
        unfold checkIdleTime
        rw [if_neg (by simp [hO])]
        exact hO
    | false =>
      constructor
      · intro a ha
        simp only [step] at ha
        unfold handleVisibilityChange at ha
        rw [if_neg (by simp)] at ha
        rw [if_neg (by simp [hO])] at ha
        simp at ha
      · simp only [step]
        unfold handleVisibilityChange
        rw [if_neg (by simp)]
        rw [if_neg (by simp [hO])]
        simp [reconnect]

theorem run_degraded_inert (evs : List Event) : ∀ (c : Client) (id : Nat),
    c.isOpened = false → NoRfFor c id → id < c.idCounter → IdsBelow c →
    (∀ st ∈ runStates c evs, st.usingRestfulAPI = true) →
    ∀ a ∈ (run c evs).2,
      (∀ ev, a ≠ Act.ACallback ev) ∧ a ≠ Act.APollStart id ∧ ∀ m, a ≠ Act.ASend m := by
  induction evs with
  | nil =>
    intro c id _ _ _ _ _ a ha
    simp [run] at ha
  | cons e es ih =>
    intro c id hO hRf hLt hB hRS a ha
    have hU : c.usingRestfulAPI = true := hRS c (self_mem_runStates ..)
    have hU2 : (step c e).1.usingRestfulAPI = true := by
      refine hRS (step c e).1 ?_
      simp only [runStates]
      exact List.mem_cons_of_mem _ (self_mem_runStates ..)
    obtain ⟨hacts, hO2⟩ := step_degraded_inert c e id hO hU hRf hLt hU2
    simp only [run] at ha
    rcases List.mem_append.mp ha with h1 | h2
    · exact hacts a h1
    · obtain ⟨hB2, hLt2, -, hRfpres⟩ := step_preserves_tracking c e id hB hLt
      refine ih (step c e).1 id hO2 (hRfpres hRf) hLt2 hB2 ?_ a h2
      intro st hst
      refine hRS st ?_
      simp only [runStates]
      exact List.mem_cons_of_mem _ hst

/-- C10: a `subscribe` issued while degraded that supplies no pull fallback
stores the subscription in the registry and does nothing else — nothing is
transmitted, nothing is queued, no polling loop starts and only the id is
returned; and for as long as the mode remains degraded, no transmission, no
poll-loop start for that subscription and no callback invocation at all is
ever emitted. -/
theorem C10_degraded_subscribe_without_fallback_inert :
    (∀ (c : Client) (params : String) (pred : Payload → Except Nat Bool)
        (cbT : Option Nat → Option Payload → Bool),
      c.usingRestfulAPI = true → IdsBelow c →
      (subscribe c params pred cbT none).1.subscriptions
          = c.subscriptions ++ [⟨c.idCounter, ⟨params, c.idCounter⟩, pred, cbT, none, none⟩]
      ∧ (subscribe c params pred cbT none).1.messageQueue = c.messageQueue
      ∧ (subscribe c params pred cbT none).2 = [Act.ASubId c.idCounter])
    ∧ (∀ (c : Client) (id : Nat) (evs : List Event),
      c.isOpened = false → NoRfFor c id → id < c.idCounter → IdsBelow c →
      (∀ st ∈ runStates c evs, st.usingRestfulAPI = true) →
      ∀ a ∈ (run c evs).2,
        (∀ ev, a ≠ Act.ACallback ev) ∧ a ≠ Act.APollStart id ∧ ∀ m, a ≠ Act.ASend m) := by
  constructor
  · intro c params pred cbT hU hB
    rw [subscribe_degraded_noRf c params pred cbT hU hB]
    exact ⟨rfl, rfl, rfl⟩
  · intro c id evs
    exact run_degraded_inert evs c id

theorem C10_inert_witness :
    degradedClient.usingRestfulAPI = true
    ∧ IdsBelow degradedClient
    ∧ ((subscribe degradedClient "D" predTrue cbNoThrow none).1.subscriptions
          = degradedClient.subscriptions
            ++ [⟨degradedClient.idCounter, ⟨"D", degradedClient.idCounter⟩, predTrue, cbNoThrow, none, none⟩]
      ∧ (subscribe degradedClient "D" predTrue cbNoThrow none).1.messageQueue
          = degradedClient.messageQueue
      ∧ (subscribe degradedClient "D" predTrue cbNoThrow none).2
          = [Act.ASubId degradedClient.idCounter]) :=
  ⟨rfl, by intro s hs; simp [degradedClient, mkClient] at hs,
   C10_degraded_subscribe_without_fallback_inert.1 degradedClient "D" predTrue cbNoThrow rfl
     (by intro s hs; simp [degradedClient, mkClient] at hs)⟩

end WebSocketWrap
